import Mathlib

/-!
Shallow embedding of the base32 codec in src/src/base32.cpp.

Bytes (`std::vector<uint8_t>`) are modelled as `List Nat` with values
below 256; encoded strings (`std::string` / `std::string_view`) are
modelled as `List Nat` of character codes 0..255.  A C++ `char` is
signed on the target platform, so a byte value of 128 or more appears
negative there; `inAlphabet` models the `val < 0` guard as `128 ≤ val`.
Machine-integer truncation to `uint8_t` is modelled with `% 256` at the
points where the C++ code narrows a wider value.
-/

namespace Base32

/-- The error enumeration from include/base32/base32.hpp. -/
inductive Error where
  | NoError
  | InvalidB32Input
  | MaxLengthExceeded
  | EmptyString
deriving DecidableEq, Repr

def gBitsPerByte : Nat := 8

def gBytesPerB32Block : Nat := 5

def gBitsPerB32Block : Nat := gBitsPerByte * gBytesPerB32Block

def gB32Padding6 : Nat := 6

def gB32Padding4 : Nat := 4

def gB32Padding3 : Nat := 3

def gB32Padding1 : Nat := 1

def gMaxEncodeInputLen : Nat := 64 * 1024 * 1024

def gMaxDecodeBase32InputLen : Nat :=
  (gMaxEncodeInputLen * gBitsPerByte + 4) / gBytesPerB32Block

/-- The alphabet array.  In the source it is a `std::array<uint8_t, 33>`
initialised from the string literal "ABCDEFGHIJKLMNOPQRSTUVWXYZ234567",
so it holds the 32 alphabet characters followed by the terminating NUL
byte (value 0); the table builders below iterate over all 33 entries,
exactly as `std::size(gB32Alphabet)` makes the C++ loops do. -/
def gB32AlphabetArr : List Nat :=
  [65, 66, 67, 68, 69, 70, 71, 72, 73, 74, 75, 76, 77, 78, 79, 80,
   81, 82, 83, 84, 85, 86, 87, 88, 89, 90, 50, 51, 52, 53, 54, 55, 0]

def gMaxAlphabetPosions : Nat := 128

/-- buildPositionsInAlphabet: table of positions in the base 32
alphabet, initialised to the sentinel 255 and then overwritten with the
index of each of the 33 entries of the array (NUL included). -/
def buildPositionsInAlphabet : List Nat :=
  (List.range gB32AlphabetArr.length).foldl
    (fun t i => t.set (gB32AlphabetArr.getD i 0) i)
    (List.replicate gMaxAlphabetPosions 255)

def gPositionsInAlphabet : List Nat := buildPositionsInAlphabet

/-- buildAlphabetLookupTable: membership table, marking every entry of
the 33-byte array (NUL included) and the pad character (code 61). -/
def buildAlphabetLookupTable : List Bool :=
  (gB32AlphabetArr.foldl (fun t pos => t.set pos true)
    (List.replicate gMaxAlphabetPosions false)).set 61 true

def gAlphabetLookupTable : List Bool := buildAlphabetLookupTable

/-- inAlphabet from the source: a negative `char` (byte value 128..255
on a signed-char platform) is rejected, otherwise the membership table
is consulted. -/
def inAlphabet (val : Nat) : Bool :=
  if 128 ≤ val then false else gAlphabetLookupTable.getD val false

def validateEncodeInput (userData : List Nat) : Error :=
  if userData.length > gMaxEncodeInputLen then Error.MaxLengthExceeded
  else Error.NoError

/-- getPaddingBytesCount: number of pad characters from
`totalBits % 40`.  The final branch models `std::unreachable()`; it is
never taken because `totalBits % 40` is a multiple of 8. -/
def getPaddingBytesCount (userData : List Nat) : Nat :=
  let totalBits := userData.length * gBitsPerByte
  if totalBits % gBitsPerB32Block = 0 then 0
  else if totalBits % gBitsPerB32Block = gBitsPerByte then gB32Padding6
  else if totalBits % gBitsPerB32Block = 2 * gBitsPerByte then gB32Padding4
  else if totalBits % gBitsPerB32Block = 3 * gBitsPerByte then gB32Padding3
  else if totalBits % gBitsPerB32Block = 4 * gBitsPerByte then gB32Padding1
  else 0

/-- The 40-bit accumulator for one block: five bytes packed big-endian,
missing trailing bytes read as 0 (`i + k < userDataChars ? ... : 0`). -/
def quintupleOfChunk (chunk : List Nat) : Nat :=
  (List.range gBytesPerB32Block).foldl
    (fun q k => (q <<< gBitsPerByte) ||| chunk.getD k 0) 0

/-- The eight characters emitted for one block: 5-bit groups taken
most-significant first (shifts 35, 30, ..., 0) and mapped through the
alphabet. -/
def encodeChunk (q : Nat) : List Nat :=
  (List.range 8).map
    (fun k => gB32AlphabetArr.getD ((q >>> (35 - 5 * k)) &&& 0x1F) 0)

/-- The outer encode loop: the input is consumed five bytes at a time
(`i += 5` while `i < userDataChars`), each block contributing eight
characters; a final block of fewer than five bytes is zero-filled by
`quintupleOfChunk`.  The C++ loop writes these `8 * ceil(n/5)`
characters into the preallocated output string. -/
def encodeBlocks : List Nat → List Nat
  | [] => []
  | a :: b :: c :: d :: e :: rest =>
    encodeChunk (quintupleOfChunk [a, b, c, d, e]) ++ encodeBlocks rest
  | l => encodeChunk (quintupleOfChunk l)

/-- encode from the source.  The C++ code allocates a string of
`outputLength + numOfEquals` characters, fills all of it through the
block loop, then overwrites the final `numOfEquals` positions with the
pad character (code 61); that is the same string as the first
`outputLength` block characters followed by `numOfEquals` pads. -/
def encode (userData : List Nat) : List Nat × Error :=
  match validateEncodeInput userData with
  | Error.NoError =>
    let outputLength := (userData.length * gBitsPerByte + 4) / gBytesPerB32Block
    let numOfEquals := getPaddingBytesCount userData
    ((encodeBlocks userData).take outputLength ++ List.replicate numOfEquals 61,
      Error.NoError)
  | e => ([], e)

def validateDecodeInput (userData : List Nat) : Error :=
  if userData.length > gMaxDecodeBase32InputLen then Error.MaxLengthExceeded
  else Error.NoError

/-- getPayloadSize: the input length minus the run of trailing pad
characters (code 61). -/
def getPayloadSize (userData : List Nat) : Nat :=
  userData.length - (userData.reverse.takeWhile (fun c => c == 61)).length

/-- The decodePayload loop.  State: `currentByte` (a `uint8_t`) and
`bitsLeft` (bits still free in the current output byte).  Spaces
(code 32) are skipped; a character failing `inAlphabet` aborts with
`InvalidB32Input`, and the bytes already emitted at that point are what
the caller returns.  The `% 256` occurrences model the narrowing of the
shifted values to `uint8_t`. -/
def decodePayloadAux : List Nat → Nat → Nat → List Nat × Error
  | [], _, _ => ([], Error.NoError)
  | c :: rest, currentByte, bitsLeft =>
    if c == 32 then decodePayloadAux rest currentByte bitsLeft
    else if ¬ inAlphabet c then ([], Error.InvalidB32Input)
    else
      let charIndex := gPositionsInAlphabet.getD c 255
      if bitsLeft > gBytesPerB32Block then
        let mask := (charIndex <<< (bitsLeft - gBytesPerB32Block)) % 256
        decodePayloadAux rest (currentByte ||| mask)
          (bitsLeft - gBytesPerB32Block)
      else
        let mask := charIndex >>> (gBytesPerB32Block - bitsLeft)
        let next := decodePayloadAux rest
          ((charIndex <<< (gBitsPerByte - gBytesPerB32Block + bitsLeft)) % 256)
          (bitsLeft + (gBitsPerByte - gBytesPerB32Block))
        ((currentByte ||| mask) :: next.1, next.2)

/-- decodePayload processes the first `userDataChars` characters of the
input (the loop bound `i < userDataChars`). -/
def decodePayload (userData : List Nat) (userDataChars : Nat) : List Nat × Error :=
  decodePayloadAux (userData.take userDataChars) 0 gBitsPerByte

/-- decode from the source.  Note that the C++ function returns
`decodedData` unconditionally after `decodePayload`, so on
`InvalidB32Input` the partially decoded bytes are returned, not an
empty buffer.  The `outputLength` reserve computation has no observable
effect and is omitted. -/
def decode (userData : List Nat) : List Nat × Error :=
  match validateDecodeInput userData with
  | Error.NoError => decodePayload userData (getPayloadSize userData)
  | e => ([], e)

/-- Character codes of a string, for readable statements about encoded
text. -/
def strBytes (s : String) : List Nat := s.toList.map Char.toNat

/-! ## Helper lemmas -/

theorem encodeChunk_length (q : Nat) : (encodeChunk q).length = 8 := by
  simp [encodeChunk]

theorem encodeBlocks_length :
    ∀ l : List Nat, (encodeBlocks l).length = 8 * ((l.length + 4) / 5)
  | [] => by simp [encodeBlocks]
  | [a] => by simp [encodeBlocks, encodeChunk_length]
  | [a, b] => by simp [encodeBlocks, encodeChunk_length]
  | [a, b, c] => by simp [encodeBlocks, encodeChunk_length]
  | [a, b, c, d] => by simp [encodeBlocks, encodeChunk_length]
  | a :: b :: c :: d :: e :: rest => by
    simp only [encodeBlocks, List.length_append, encodeChunk_length,
      encodeBlocks_length rest, List.length_cons]
    omega

theorem getPaddingBytesCount_eq (b : List Nat) :
    getPaddingBytesCount b = [0, 6, 4, 3, 1].getD (b.length % 5) 0 := by
  unfold getPaddingBytesCount gBitsPerB32Block gBitsPerByte gBytesPerB32Block
    gB32Padding6 gB32Padding4 gB32Padding3 gB32Padding1
  have h40 : b.length * 8 % (8 * 5) = 8 * (b.length % 5) := by omega
  have h : b.length % 5 = 0 ∨ b.length % 5 = 1 ∨ b.length % 5 = 2 ∨
      b.length % 5 = 3 ∨ b.length % 5 = 4 := by omega
  rcases h with h | h | h | h | h <;> simp [h40, h]

theorem outputLen_add_pads (b : List Nat) :
    (b.length * 8 + 4) / 5 + getPaddingBytesCount b = 8 * ((b.length + 4) / 5) := by
  rw [getPaddingBytesCount_eq]
  have h : b.length % 5 = 0 ∨ b.length % 5 = 1 ∨ b.length % 5 = 2 ∨
      b.length % 5 = 3 ∨ b.length % 5 = 4 := by omega
  rcases h with h | h | h | h | h <;> · rw [h]; simp; omega

theorem encode_eq_of_le (b : List Nat) (h : b.length ≤ gMaxEncodeInputLen) :
    encode b = ((encodeBlocks b).take ((b.length * 8 + 4) / 5) ++
      List.replicate (getPaddingBytesCount b) 61, Error.NoError) := by
  unfold encode validateEncodeInput
  rw [if_neg (by omega)]
  rfl

theorem encode_fst_length (b : List Nat) (h : b.length ≤ gMaxEncodeInputLen) :
    (encode b).1.length = (b.length * 8 + 4) / 5 + getPaddingBytesCount b := by
  rw [encode_eq_of_le b h]
  have hb := encodeBlocks_length b
  have hs := outputLen_add_pads b
  simp only [List.length_append, List.length_take, List.length_replicate, hb]
  omega

theorem decodePayloadAux_ne_maxLen :
    ∀ (l : List Nat) (cur bl : Nat),
      (decodePayloadAux l cur bl).2 = Error.NoError ∨
      (decodePayloadAux l cur bl).2 = Error.InvalidB32Input
  | [], _, _ => Or.inl rfl
  | c :: rest, cur, bl => by
    unfold decodePayloadAux
    split
    · exact decodePayloadAux_ne_maxLen rest cur bl
    · split
      · exact Or.inr rfl
      · split
        · exact decodePayloadAux_ne_maxLen rest _ _
        · exact decodePayloadAux_ne_maxLen rest _ _

theorem decodePayloadAux_spaces :
    ∀ (a cur bl : Nat),
      decodePayloadAux (List.replicate a 32) cur bl = ([], Error.NoError)
  | 0, _, _ => rfl
  | a + 1, cur, bl => by
    rw [List.replicate_succ]
    unfold decodePayloadAux
    simp only [beq_self_eq_true, if_true]
    exact decodePayloadAux_spaces a cur bl

theorem takeWhile61_replicate32 (a : Nat) :
    (List.replicate a 32).takeWhile (fun c => c == 61) = ([] : List Nat) := by
  rw [List.takeWhile_replicate]
  simp

theorem takeWhile61_pads_then_spaces (a b : Nat) :
    ((List.replicate b 61 ++ List.replicate a 32).takeWhile
      (fun c => c == 61)).length = b := by
  induction b with
  | zero => simp [takeWhile61_replicate32]
  | succ b ih =>
    rw [List.replicate_succ, List.cons_append, List.takeWhile_cons]
    simp only [beq_self_eq_true, if_true, List.length_cons]
    omega

theorem encode_oversize (b : List Nat) (h : b.length > gMaxEncodeInputLen) :
    encode b = ([], Error.MaxLengthExceeded) := by
  unfold encode validateEncodeInput
  rw [if_pos h]

theorem decode_oversize (s : List Nat) (h : s.length > gMaxDecodeBase32InputLen) :
    decode s = ([], Error.MaxLengthExceeded) := by
  unfold decode validateDecodeInput
  rw [if_pos h]

theorem decode_eq_of_le (s : List Nat) (h : s.length ≤ gMaxDecodeBase32InputLen) :
    decode s = decodePayload s (getPayloadSize s) := by
  unfold decode validateDecodeInput
  rw [if_neg (by omega)]

/-- The encoding of a maximum-size input is one character longer than
the decode ceiling: 64 MiB is 13421773 blocks of which the last is
partial, giving 107374183 symbol characters plus one pad. -/
theorem encode_max_input_length :
    (encode (List.replicate gMaxEncodeInputLen 0)).1.length =
      gMaxDecodeBase32InputLen + 1 := by
  rw [encode_fst_length _ (by simp), getPaddingBytesCount_eq]
  simp only [List.length_replicate]
  decide

/-! ## Claim theorems -/

/-- C1: the claim that decode(encode(b)) round-trips with NoError for
every buffer with len(b) ≤ MAX_ENCODE_LEN fails at the maximum length
itself: the encoding of a 64 MiB buffer is 107374184 characters, one
more than gMaxDecodeBase32InputLen, so the decode step reports
MaxLengthExceeded and returns an empty buffer instead of the input. -/
theorem roundtrip_fails_at_max_len :
    decode (encode (List.replicate gMaxEncodeInputLen 0)).1 =
      ([], Error.MaxLengthExceeded) ∧
    (decode (encode (List.replicate gMaxEncodeInputLen 0)).1).1 ≠
      List.replicate gMaxEncodeInputLen 0 := by
  have hdec := decode_oversize _ (by rw [encode_max_input_length]; omega)
  refine ⟨hdec, ?_⟩
  rw [hdec]
  intro hc
  have hlc := congrArg List.length hc
  rw [List.length_replicate] at hlc
  exact absurd hlc (by decide)

/-- C2: the claim that MAX_DECODE_LEN suffices for any valid encoding
of a maximum-size input fails: encode of a 64 MiB buffer has length
MAX_DECODE_LEN + 1 (the pad character is not accounted for by the
ceiling formula), and decode of that encoding reports
MaxLengthExceeded. -/
theorem encode_max_exceeds_decode_ceiling :
    (encode (List.replicate gMaxEncodeInputLen 0)).1.length =
      gMaxDecodeBase32InputLen + 1 ∧
    (decode (encode (List.replicate gMaxEncodeInputLen 0)).1).2 =
      Error.MaxLengthExceeded := by
  refine ⟨encode_max_input_length, ?_⟩
  rw [decode_oversize _ (by rw [encode_max_input_length]; omega)]

/-- C3 counterexample: decode of "MZ!" reports InvalidB32Input yet
returns the partially decoded byte 102, not an empty buffer. -/
theorem decode_invalid_returns_partial :
    (decode (strBytes "MZ!")).2 = Error.InvalidB32Input ∧
    (decode (strBytes "MZ!")).1 = [102] ∧
    (decode (strBytes "MZ!")).1 ≠ [] := by decide

/-- C3 amended: when encode reports an error the result is empty, and
when decode reports MaxLengthExceeded the result is empty; a decode
that encounters an invalid character instead returns the bytes decoded
before that character, which may be non-empty. -/
theorem error_results_empty (b s : List Nat)
    (hb : (encode b).2 ≠ Error.NoError)
    (hs : (decode s).2 = Error.MaxLengthExceeded) :
    (encode b).1 = [] ∧ (decode s).1 = [] := by
  constructor
  · by_cases hlen : b.length > gMaxEncodeInputLen
    · rw [encode_oversize b hlen]
    · exact absurd (congrArg Prod.snd (encode_eq_of_le b (by omega))) hb
  · by_cases hlen : s.length > gMaxDecodeBase32InputLen
    · rw [decode_oversize s hlen]
    · rw [decode_eq_of_le s (by omega)] at hs
      rcases decodePayloadAux_ne_maxLen (s.take (getPayloadSize s)) 0 gBitsPerByte
        with h | h <;> rw [decodePayload] at hs <;> rw [h] at hs <;> cases hs

theorem error_results_empty_witness :
    (encode (List.replicate (gMaxEncodeInputLen + 1) 0)).1 = [] ∧
    (decode (List.replicate (gMaxDecodeBase32InputLen + 1) 65)).1 = [] :=
  error_results_empty _ _
    (by rw [encode_oversize _ (by rw [List.length_replicate]; omega)]; decide)
    (by rw [decode_oversize _ (by rw [List.length_replicate]; omega)])

/-- C4: the claim that every in-ceiling input containing a byte outside
the set A..Z, 2..7, pad, space is rejected fails for the NUL byte: the
terminating NUL of the alphabet array was entered into the lookup
tables, so inAlphabet accepts byte 0 and decode of the one-byte string
containing NUL reports NoError. -/
theorem decode_accepts_nul :
    inAlphabet 0 = true ∧ decode [0] = ([], Error.NoError) := by decide

/-- C5: the table invariants fail at byte value 0: the reverse-lookup
table holds 32 there (the index of the terminating NUL in the 33-byte
alphabet array) instead of the sentinel 255, and the validity table
holds true there although byte 0 is neither one of the 32 alphabet
characters nor the pad character 61. -/
theorem lookup_tables_wrong_at_nul :
    gPositionsInAlphabet.getD 0 255 = 32 ∧
    gAlphabetLookupTable.getD 0 false = true ∧
    (0 : Nat) ∉ gB32AlphabetArr.take 32 ∧ (0 : Nat) ≠ 61 := by decide

/-- C6: for every buffer within the encode ceiling, the encoded length
is floor((8n+4)/5) symbol characters plus the pad count given by the
table indexed by n mod 5 (0, 6, 4, 3, 1); the final pad positions all
hold the pad character 61, and the total length is a multiple of 8
whenever n is positive. -/
theorem encode_length_spec (b : List Nat) (h : b.length ≤ gMaxEncodeInputLen) :
    (encode b).1.length = (b.length * 8 + 4) / 5 + getPaddingBytesCount b ∧
    (encode b).1.drop ((b.length * 8 + 4) / 5) =
      List.replicate (getPaddingBytesCount b) 61 ∧
    getPaddingBytesCount b = [0, 6, 4, 3, 1].getD (b.length % 5) 0 ∧
    (0 < b.length → (encode b).1.length % 8 = 0) := by
  refine ⟨encode_fst_length b h, ?_, getPaddingBytesCount_eq b, ?_⟩
  · rw [encode_eq_of_le b h]
    exact List.drop_left' (by
      rw [List.length_take, encodeBlocks_length]
      have := outputLen_add_pads b
      omega)
  · intro _
    rw [encode_fst_length b h, outputLen_add_pads b]
    omega

theorem encode_length_spec_witness :
    (encode [102]).1.length =
      (([102] : List Nat).length * 8 + 4) / 5 + getPaddingBytesCount [102] ∧
    (encode [102]).1.drop ((([102] : List Nat).length * 8 + 4) / 5) =
      List.replicate (getPaddingBytesCount [102]) 61 ∧
    getPaddingBytesCount [102] = [0, 6, 4, 3, 1].getD (([102] : List Nat).length % 5) 0 ∧
    (0 < ([102] : List Nat).length → (encode [102]).1.length % 8 = 0) :=
  encode_length_spec [102] (by decide)

/-- C7: the RFC 4648 test vectors: encode maps the byte strings of "",
"f", "fo", "foo", "foob", "fooba", "foobar" to the expected padded
strings with NoError, decode maps each of those strings back with
NoError, and encode of four zero bytes yields "AAAAAAA=". -/
theorem rfc4648_vectors :
    encode (strBytes "") = (strBytes "", Error.NoError) ∧
    encode (strBytes "f") = (strBytes "MY======", Error.NoError) ∧
    encode (strBytes "fo") = (strBytes "MZXQ====", Error.NoError) ∧
    encode (strBytes "foo") = (strBytes "MZXW6===", Error.NoError) ∧
    encode (strBytes "foob") = (strBytes "MZXW6YQ=", Error.NoError) ∧
    encode (strBytes "fooba") = (strBytes "MZXW6YTB", Error.NoError) ∧
    encode (strBytes "foobar") = (strBytes "MZXW6YTBOI======", Error.NoError) ∧
    decode (strBytes "") = (strBytes "", Error.NoError) ∧
    decode (strBytes "MY======") = (strBytes "f", Error.NoError) ∧
    decode (strBytes "MZXQ====") = (strBytes "fo", Error.NoError) ∧
    decode (strBytes "MZXW6===") = (strBytes "foo", Error.NoError) ∧
    decode (strBytes "MZXW6YQ=") = (strBytes "foob", Error.NoError) ∧
    decode (strBytes "MZXW6YTB") = (strBytes "fooba", Error.NoError) ∧
    decode (strBytes "MZXW6YTBOI======") = (strBytes "foobar", Error.NoError) ∧
    encode [0, 0, 0, 0] = (strBytes "AAAAAAA=", Error.NoError) := by decide

/-- C8 counterexample: the three-character input pad, pad, space
consists only of space and pad characters, yet decode returns the
byte 255 with NoError: only trailing pads are stripped, and the two
interior pads are fed to the accumulator with the sentinel index 255,
emitting one byte. -/
theorem decode_interior_pads_not_ignored :
    (decode [61, 61, 32]).1 ≠ [] ∧
    decode [61, 61, 32] = ([255], Error.NoError) := by decide

/-- C8 amended: pad characters determine the payload boundary only
when trailing; every input of spaces followed by pad characters
(within the length ceiling, the empty string included) decodes to an
empty byte buffer with NoError, because the trailing pads are stripped
and the spaces are skipped. -/
theorem spaces_then_pads_decode_empty (a b : Nat)
    (h : a + b ≤ gMaxDecodeBase32InputLen) :
    decode (List.replicate a 32 ++ List.replicate b 61) = ([], Error.NoError) := by
  have hlen : (List.replicate a 32 ++ List.replicate b 61).length = a + b := by simp
  have hpayload : getPayloadSize (List.replicate a 32 ++ List.replicate b 61) = a := by
    unfold getPayloadSize
    rw [List.reverse_append, List.reverse_replicate, List.reverse_replicate,
      takeWhile61_pads_then_spaces, hlen]
    omega
  rw [decode_eq_of_le _ (by omega), decodePayload, hpayload,
    List.take_left' (by simp)]
  exact decodePayloadAux_spaces a 0 gBitsPerByte

theorem spaces_then_pads_decode_empty_witness :
    decode (List.replicate 2 32 ++ List.replicate 6 61) = ([], Error.NoError) :=
  spaces_then_pads_decode_empty 2 6 (by decide)

/-- C9: spaces inserted between symbol groups do not change the decode
result: decode of "MZ XW 6Y TB" equals decode of "MZXW6YTB", both
yielding the bytes of "fooba" with NoError. -/
theorem decode_skips_spaces :
    decode (strBytes "MZ XW 6Y TB") = decode (strBytes "MZXW6YTB") ∧
    decode (strBytes "MZXW6YTB") = (strBytes "fooba", Error.NoError) := by decide

/-- C10: decode is not injective on accepted inputs: the distinct
strings "MY" and "MZ" both decode to the single byte 102 with NoError,
because the low-order bits of the final symbol are discarded without
being required to be zero. -/
theorem decode_not_injective :
    strBytes "MY" ≠ strBytes "MZ" ∧
    decode (strBytes "MY") = ([102], Error.NoError) ∧
    decode (strBytes "MZ") = ([102], Error.NoError) := by decide

end Base32
